import Mathlib

/-!
Verification of the bib-check entry-normalization pipeline (bib-check.py).

The Python program is shallowly embedded. Records (`Entry`) carry a key,
an entry type and an ordered list of fields; the external world is passed
in explicitly: the DBLP search response is a list of `Hit`s, each already
paired with the parse result of its fetched BibTeX payload, the operator's
console input is a list of strings, and the AI service response is an
`AiOutcome`. Logging is modelled by returning a list of structured
diagnostics (`Diag`). The interactive disambiguation loop is modelled as a
function of the list of inputs consumed so far; it returns `none` while it
is still re-prompting (no valid choice seen yet).
-/

namespace BibCheck

/-- A BibTeX field, as in bibtexparser's `Field` (attributes `key`, `value`). -/
structure Field where
  key : String
  value : String
  deriving DecidableEq, Repr

/-- A BibTeX entry, as in bibtexparser's `Entry`: citation key, entry type,
ordered list of fields. The source position is irrelevant to the verified
logic and omitted. -/
structure Entry where
  key : String
  entry_type : String
  fields : List Field
  deriving DecidableEq, Repr

/-- A structured diagnostic, standing for one `logger.warning` / `logger.error`
call of the script; each constructor records the data interpolated into the
corresponding format string. -/
inductive Diag where
  | missingField (fieldName : String) (key : String)
  | missingTitle (key : String)
  | noHits (key : String)
  | failedParseDblp (key : String)
  | unrecognizedKind (kind : String) (key : String)
  | aiEmpty
  | aiError (msg : String)
  deriving DecidableEq, Repr

/-- One DBLP search hit, as built by `DblpSearch.search`, together with the
environment's answer to fetching its `bibtex` URL: `parsed` is
`bibtexparser.parse_string(requests.get(hit["bibtex"]).text).entries`. -/
structure Hit where
  title : String
  year : String
  venue : String
  parsed : List Entry
  deriving DecidableEq, Repr

/-- The converter configuration flags of `BibConverter.__init__` that the
verified logic reads. -/
structure Config where
  use_ai : Bool
  use_dblp : Bool
  suppress_type : Bool
  deriving DecidableEq, Repr

/-- The AI rewriting service, abstracted: the three prompt wrappers
`ai_revise_title`, `ai_revise_journal`, `ai_revise_inproceedings` become
three string transformers supplied by the environment. -/
structure AiOracle where
  revise_title : String → String
  revise_journal : String → String
  revise_inproceedings : String → String

/-- `entry.fields_dict[k]`: bibtexparser builds
`{field.key: field for field in entry.fields}`, so the LAST field with a
given key wins; `none` means `k not in entry`. -/
def fieldsDictGet (fs : List Field) (k : String) : Option Field :=
  match fs with
  | [] => none
  | f :: rest =>
    match fieldsDictGet rest k with
    | some g => some g
    | none => if f.key == k then some f else none

/-- The local function `replace_entry` of `BibConverter.check_dblp`: if the
fetched payload parses into exactly one entry, the target entry's fields and
entry type are overwritten with the downloaded entry's; otherwise a warning
naming the target's key is logged and nothing changes. -/
def replace_entry (e : Entry) (hit : Hit) : Entry × List Diag :=
  match hit.parsed with
  | [downloaded] =>
    ({ e with fields := downloaded.fields, entry_type := downloaded.entry_type }, [])
  | _ => (e, [Diag.failedParseDblp e.key])

/-- `choice.isdigit()`: the string is nonempty and all its characters are
decimal digits (operator input is modelled as ASCII). -/
def isdigit (s : String) : Bool :=
  !s.data.isEmpty && s.data.all Char.isDigit

/-- `int(choice)` on an all-digit string: the decimal value. -/
def strToNat (s : String) : Nat :=
  s.data.foldl (fun acc c => acc * 10 + (c.toNat - 48)) 0

/-- The validity test of the interactive loop:
`choice.isdigit() and 0 <= int(choice) < n` (`0 <= int(choice)` holds
whenever `isdigit` does). -/
def validChoice (choice : String) (n : Nat) : Bool :=
  isdigit choice && decide (strToNat choice < n)

/-- The `while True` disambiguation loop of `check_dblp`, run against the
finite list of operator inputs consumed so far. An invalid input re-prompts
(consumes the input, changes nothing); the first valid input `i` replaces
the entry via `replace_entry hits[i]` and breaks; `none` means every input
so far was invalid and the loop is still waiting at the prompt. -/
def manyLoop (e : Entry) (hits : List Hit) : List String → Option (Entry × List Diag)
  | [] => none
  | c :: cs =>
    if isdigit c then
      match hits[strToNat c]? with
      | some h => some (replace_entry e h)
      | none => manyLoop e hits cs
    else manyLoop e hits cs

/-- `BibConverter.check_dblp`: missing title warns and returns; otherwise the
DBLP search result `hits` drives a three-way dispatch: no hits warns, one hit
auto-replaces, many hits enter the interactive loop. -/
def check_dblp (e : Entry) (hits : List Hit) (inputs : List String) :
    Option (Entry × List Diag) :=
  if (fieldsDictGet e.fields "title").isSome = false then
    some (e, [Diag.missingTitle e.key])
  else
    match hits with
    | [] => some (e, [Diag.noHits e.key])
    | [hit] => some (replace_entry e hit)
    | _ => manyLoop e hits inputs

/-- The outcome of one call to the AI chat-completion endpoint:
either some exception was raised inside the `try` block (network error,
empty `choices`, ...), or a response was returned whose
`choices[0].message.content` is `content` (`none` models Python `None`). -/
inductive AiOutcome where
  | raised (msg : String)
  | returned (content : Option String)
  deriving DecidableEq, Repr

/-- `BibConverter.ai_revise`: raises `ValueError` when the client is not
initialized (modelled as `Except.error`); otherwise it never raises: a
service exception is caught and logged and the old name returned, a falsy
(`None` or empty) content warns and returns the old name, and a nonempty
content is returned verbatim. -/
def ai_revise (hasClient : Bool) (outcome : AiOutcome) (old_name : String) :
    Except String (String × List Diag) :=
  if hasClient = false then
    Except.error "AI client is not initialized"
  else
    match outcome with
    | AiOutcome.raised msg => Except.ok (old_name, [Diag.aiError msg])
    | AiOutcome.returned none => Except.ok (old_name, [Diag.aiEmpty])
    | AiOutcome.returned (some c) =>
      if c == "" then Except.ok (old_name, [Diag.aiEmpty])
      else Except.ok (c, [])

/-- The required-field list of `convert_article`. -/
def required_article : List String := ["title", "author", "journal", "year"]

/-- The required-field list of `convert_inproceedings`. -/
def required_inproceedings : List String := ["title", "author", "booktitle", "year", "pages"]

/-- The shared loop body of `convert_article` / `convert_inproceedings`:
walk the required keys in order; a missing key logs a warning naming the key
and the entry's key and `continue`s; a present key's field is looked up in
`fields_dict`, optionally rewritten (`rev` is the kind-dependent AI call,
applied only under `use_ai`), and appended to the staged list. -/
def convertLoop (use_ai : Bool) (rev : String → String → String) (e : Entry) :
    List String → List Field × List Diag
  | [] => ([], [])
  | k :: ks =>
    let rest := convertLoop use_ai rev e ks
    match fieldsDictGet e.fields k with
    | none => (rest.1, Diag.missingField k e.key :: rest.2)
    | some f =>
      let f1 := if use_ai then { f with value := rev k f.value } else f
      (f1 :: rest.1, rest.2)

/-- `BibConverter.convert_article`: stage the required fields, then replace
the entry's field list with exactly the staged fields. -/
def convert_article (cfg : Config) (ai : AiOracle) (e : Entry) : Entry × List Diag :=
  let rev := fun k v =>
    if k == "title" then ai.revise_title v
    else if k == "journal" then ai.revise_journal v
    else v
  let res := convertLoop cfg.use_ai rev e required_article
  ({ e with fields := res.1 }, res.2)

/-- `BibConverter.convert_inproceedings`: stage the required fields, then
replace the entry's field list with exactly the staged fields. -/
def convert_inproceedings (cfg : Config) (ai : AiOracle) (e : Entry) : Entry × List Diag :=
  let rev := fun k v =>
    if k == "title" then ai.revise_title v
    else if k == "booktitle" then ai.revise_inproceedings v
    else v
  let res := convertLoop cfg.use_ai rev e required_inproceedings
  ({ e with fields := res.1 }, res.2)

/-- The kind dispatch of `bib_convert`'s loop body (after the optional DBLP
step): articles and in-proceedings are normalized, any other type is left
untouched and warned about unless `suppress_type` is set. -/
def convert_entry_step (cfg : Config) (ai : AiOracle) (e : Entry) : Entry × List Diag :=
  if e.entry_type == "article" then convert_article cfg ai e
  else if e.entry_type == "inproceedings" then convert_inproceedings cfg ai e
  else if cfg.suppress_type then (e, [])
  else (e, [Diag.unrecognizedKind e.entry_type e.key])

/-- The whole per-entry body of `bib_convert`'s loop: under `use_dblp`, an
article / in-proceedings entry first goes through `check_dblp` (which may
replace its type and fields), then the (possibly replaced) entry is
dispatched on its type. `hits` is the environment's DBLP answer for this
entry's title, `inputs` the operator input. `none` models the interactive
loop still waiting for a valid choice. -/
def process_entry (cfg : Config) (ai : AiOracle) (hits : List Hit)
    (inputs : List String) (e : Entry) : Option (Entry × List Diag) :=
  if cfg.use_dblp && (e.entry_type == "article" || e.entry_type == "inproceedings") then
    match check_dblp e hits inputs with
    | none => none
    | some (e1, ds1) =>
      let res := convert_entry_step cfg ai e1
      some (res.1, ds1 ++ res.2)
  else
    let res := convert_entry_step cfg ai e
    some (res.1, res.2)

/-- The observable events of `BibConverter.bib_convert`'s main loop:
processing one entry (the whole `try` block) and one invocation of the
serializer `bibtexparser.write_file`. -/
inductive Event where
  | processEntry (key : String)
  | writeFile
  deriving DecidableEq, BEq, Repr

/-- The event trace of `bib_convert`'s loop over the parsed entries. In the
source, the `bibtexparser.write_file(f_out, library)` call on line 306 is
indented inside the `for entry in library.entries` loop (same level as the
`try`), so every iteration ends with a serializer invocation. -/
def bib_convert_events : List Entry → List Event
  | [] => []
  | e :: rest => Event.processEntry e.key :: Event.writeFile :: bib_convert_events rest

/-! ### Helper lemmas -/

theorem fieldsDictGet_key {fs : List Field} {k : String} {f : Field}
    (h : fieldsDictGet fs k = some f) : f.key = k := by
  induction fs with
  | nil => simp [fieldsDictGet] at h
  | cons g rest ih =>
    rw [fieldsDictGet] at h
    cases hr : fieldsDictGet rest k with
    | some g' =>
      rw [hr] at h
      exact ih (hr.trans h)
    | none =>
      rw [hr] at h
      by_cases hk : g.key = k
      · simp [hk] at h
        rw [← h, hk]
      · simp [hk] at h

theorem fieldsDictGet_mem {fs : List Field} {k : String} {f : Field}
    (h : fieldsDictGet fs k = some f) : f ∈ fs := by
  induction fs with
  | nil => simp [fieldsDictGet] at h
  | cons g rest ih =>
    rw [fieldsDictGet] at h
    cases hr : fieldsDictGet rest k with
    | some g' =>
      rw [hr] at h
      exact List.mem_cons_of_mem _ (ih (hr.trans h))
    | none =>
      rw [hr] at h
      by_cases hk : g.key = k
      · simp [hk] at h
        rw [← h]
        exact List.mem_cons_self _ _
      · simp [hk] at h

/-- With `use_ai` off, the staged field list is the required keys mapped
through `fields_dict` lookup. -/
theorem convertLoop_false_fields (rev : String → String → String) (e : Entry)
    (ks : List String) :
    (convertLoop false rev e ks).1 = ks.filterMap (fieldsDictGet e.fields) := by
  induction ks with
  | nil => simp [convertLoop]
  | cons k ks ih =>
    rw [convertLoop, List.filterMap_cons]
    cases h : fieldsDictGet e.fields k <;> simp [h, ih]

/-- With `use_ai` off, the warnings are exactly one `missingField` per absent
required key, in required order. -/
theorem convertLoop_false_diags (rev : String → String → String) (e : Entry)
    (ks : List String) :
    (convertLoop false rev e ks).2 =
      (ks.filter (fun k => (fieldsDictGet e.fields k).isNone)).map
        (fun k => Diag.missingField k e.key) := by
  induction ks with
  | nil => simp [convertLoop]
  | cons k ks ih =>
    rw [convertLoop, List.filter_cons]
    cases h : fieldsDictGet e.fields k <;> simp [h, ih]

/-- Looking a key up in the staged field list agrees with looking it up in
the original field list, for keys in the staged key set; other keys are
absent from the staged list. -/
theorem fieldsDictGet_filterMap (fs : List Field) (ks : List String) (k : String) :
    fieldsDictGet (ks.filterMap (fieldsDictGet fs)) k =
      if k ∈ ks then fieldsDictGet fs k else none := by
  induction ks with
  | nil => simp [fieldsDictGet]
  | cons k' ks ih =>
    rw [List.filterMap_cons]
    cases hk' : fieldsDictGet fs k' with
    | none =>
      rw [ih]
      by_cases hmem : k ∈ ks
      · simp [hmem]
      · by_cases hkk : k = k'
        · subst hkk
          simp [hmem, hk']
        · simp [hmem, hkk]
    | some f' =>
      have hf'k : f'.key = k' := fieldsDictGet_key hk'
      rw [fieldsDictGet, ih]
      by_cases hmem : k ∈ ks
      · cases hfk : fieldsDictGet fs k with
        | some g => simp [hmem, hfk]
        | none =>
          have hkk : ¬ k = k' := by
            intro hkk
            rw [hkk, hk'] at hfk
            exact Option.noConfusion hfk
          have hkk' : ¬ k' = k := fun h => hkk h.symm
          simp [hmem, hfk, hf'k, hkk, hkk']
      · by_cases hkk : k = k'
        · subst hkk
          simp [hmem, hf'k, hk']
        · have hkk' : ¬ k' = k := fun h => hkk h.symm
          simp [hmem, hf'k, hkk, hkk']

/-- `convertLoop` only reads the entry through its key and its
`fields_dict` lookups at the required keys. -/
theorem convertLoop_congr (use_ai : Bool) (rev : String → String → String)
    (e e' : Entry) (ks : List String) (hkey : e'.key = e.key)
    (hget : ∀ k ∈ ks, fieldsDictGet e'.fields k = fieldsDictGet e.fields k) :
    convertLoop use_ai rev e' ks = convertLoop use_ai rev e ks := by
  induction ks with
  | nil => simp [convertLoop]
  | cons k ks ih =>
    rw [convertLoop, convertLoop]
    rw [hget k (List.mem_cons_self _ _), hkey,
      ih (fun k' hk' => hget k' (List.mem_cons_of_mem _ hk'))]

theorem filterMap_congr_mem {α β : Type} {f g : α → Option β} :
    ∀ {l : List α}, (∀ a ∈ l, f a = g a) → l.filterMap f = l.filterMap g
  | [], _ => rfl
  | a :: l, h => by
    rw [List.filterMap_cons, List.filterMap_cons, h a (List.mem_cons_self _ _),
      filterMap_congr_mem (fun a' ha' => h a' (List.mem_cons_of_mem _ ha'))]

theorem filterMap_fieldsDictGet_keys (fs : List Field) (ks : List String)
    (hall : ∀ k ∈ ks, (fieldsDictGet fs k).isSome = true) :
    (ks.filterMap (fieldsDictGet fs)).map Field.key = ks := by
  induction ks with
  | nil => rfl
  | cons k ks ih =>
    rw [List.filterMap_cons]
    cases h : fieldsDictGet fs k with
    | none => exact absurd (hall k (List.mem_cons_self _ _)) (by simp [h])
    | some f =>
      rw [List.map_cons, fieldsDictGet_key h,
        ih (fun k' hk' => hall k' (List.mem_cons_of_mem _ hk'))]

theorem filterMap_fieldsDictGet_mem (fs : List Field) (ks : List String)
    (f : Field) (hf : f ∈ ks.filterMap (fieldsDictGet fs)) : f ∈ fs := by
  rcases List.mem_filterMap.mp hf with ⟨k, _, hk⟩
  exact fieldsDictGet_mem hk

theorem filterMap_fieldsDictGet_idem (fs : List Field) (ks : List String) :
    ks.filterMap (fieldsDictGet (ks.filterMap (fieldsDictGet fs))) =
      ks.filterMap (fieldsDictGet fs) := by
  apply filterMap_congr_mem
  intro k hk
  rw [fieldsDictGet_filterMap]
  simp [hk]

/-- A fetched payload that does not parse into exactly one entry leaves the
target entry unchanged and logs a warning naming its key. -/
theorem replace_entry_fail (e : Entry) (hit : Hit) (h : hit.parsed.length ≠ 1) :
    replace_entry e hit = (e, [Diag.failedParseDblp e.key]) := by
  rcases hp : hit.parsed with _ | ⟨d, _ | ⟨d2, rest⟩⟩
  · simp [replace_entry, hp]
  · exact absurd (by simp [hp]) h
  · simp [replace_entry, hp]

/-- With DBLP disabled, the per-entry body is exactly the kind dispatch. -/
theorem process_entry_no_dblp (cfg : Config) (ai : AiOracle) (hits : List Hit)
    (inputs : List String) (e : Entry) (hdblp : cfg.use_dblp = false) :
    process_entry cfg ai hits inputs e = some (convert_entry_step cfg ai e) := by
  simp [process_entry, hdblp]

/-- With `use_ai` off, normalizing a known-kind entry replaces its field
list by the `fields_dict` image of the required keys and logs one
missing-field warning per absent required key, in required order. -/
theorem convert_entry_step_known_kind (cfg : Config) (ai : AiOracle) (e : Entry)
    (req : List String) (hai : cfg.use_ai = false)
    (hkind : (e.entry_type = "article" ∧ req = required_article) ∨
      (e.entry_type = "inproceedings" ∧ req = required_inproceedings)) :
    convert_entry_step cfg ai e =
      ({ e with fields := req.filterMap (fieldsDictGet e.fields) },
        (req.filter (fun k => (fieldsDictGet e.fields k).isNone)).map
          (fun k => Diag.missingField k e.key)) := by
  rcases hkind with ⟨ht, hreq⟩ | ⟨ht, hreq⟩ <;> subst hreq <;>
    simp [convert_entry_step, ht, convert_article, convert_inproceedings, hai,
      convertLoop_false_fields, convertLoop_false_diags]

/-- The entry part of `convert_entry_step_known_kind`. -/
theorem convert_entry_step_known_kind_fst (cfg : Config) (ai : AiOracle) (e : Entry)
    (req : List String) (hai : cfg.use_ai = false)
    (hkind : (e.entry_type = "article" ∧ req = required_article) ∨
      (e.entry_type = "inproceedings" ∧ req = required_inproceedings)) :
    (convert_entry_step cfg ai e).1 =
      { e with fields := req.filterMap (fieldsDictGet e.fields) } := by
  rw [convert_entry_step_known_kind cfg ai e req hai hkind]

/-- Normalizing an already-normalized entry again changes nothing (AI off),
for every entry type. -/
theorem convert_entry_step_idem (cfg : Config) (ai : AiOracle) (e : Entry)
    (hai : cfg.use_ai = false) :
    (convert_entry_step cfg ai ((convert_entry_step cfg ai e).1)).1 =
      (convert_entry_step cfg ai e).1 := by
  by_cases ht : e.entry_type = "article"
  · rw [convert_entry_step_known_kind_fst cfg ai e required_article hai
      (Or.inl ⟨ht, rfl⟩)]
    rw [convert_entry_step_known_kind_fst cfg ai
      { e with fields := required_article.filterMap (fieldsDictGet e.fields) }
      required_article hai (Or.inl ⟨ht, rfl⟩)]
    simp [filterMap_fieldsDictGet_idem]
  · by_cases ht2 : e.entry_type = "inproceedings"
    · rw [convert_entry_step_known_kind_fst cfg ai e required_inproceedings hai
        (Or.inr ⟨ht2, rfl⟩)]
      rw [convert_entry_step_known_kind_fst cfg ai
        { e with fields := required_inproceedings.filterMap (fieldsDictGet e.fields) }
        required_inproceedings hai (Or.inr ⟨ht2, rfl⟩)]
      simp [filterMap_fieldsDictGet_idem]
    · have hb1 : (e.entry_type == "article") = false := by simp [ht]
      have hb2 : (e.entry_type == "inproceedings") = false := by simp [ht2]
      cases hs : cfg.suppress_type <;>
        simp [convert_entry_step, hb1, hb2, hs]

/-! ### Concrete data for closed evaluations -/

/-- An AI oracle used only in concrete evaluations (those runs have
`use_ai` off, so it is never consulted). -/
def idOracle : AiOracle := ⟨id, id, id⟩

/-- Configuration with every feature flag off. -/
def cfgPlain : Config := ⟨false, false, false⟩

/-- Configuration with only `suppress_type` set. -/
def cfgSuppress : Config := ⟨false, false, true⟩

/-- An article whose second required field (`author`) is missing while the
later required fields `journal` and `year` are present. -/
def entryMissingAuthor : Entry :=
  ⟨"k1", "article", [⟨"title", "T"⟩, ⟨"journal", "J"⟩, ⟨"year", "Y"⟩]⟩

/-- An article with all required fields present plus a non-required
`note` field. -/
def entryFullArticle : Entry :=
  ⟨"k2", "article",
    [⟨"note", "N"⟩, ⟨"title", "T"⟩, ⟨"author", "A"⟩, ⟨"journal", "J"⟩,
      ⟨"year", "Y"⟩]⟩

/-- The normalization result of `entryFullArticle`. -/
def entryFullNormalized : Entry :=
  ⟨"k2", "article",
    [⟨"title", "T"⟩, ⟨"author", "A"⟩, ⟨"journal", "J"⟩, ⟨"year", "Y"⟩]⟩

/-- An entry of unrecognized type. -/
def entryBook : Entry := ⟨"k3", "book", [⟨"title", "T"⟩]⟩

/-- An entry carrying a title, used as a DBLP lookup target. -/
def entryTitled : Entry := ⟨"k4", "article", [⟨"title", "T"⟩]⟩

/-- The authoritative entry behind `hitGood`. -/
def entryDownloaded : Entry :=
  ⟨"kd", "inproceedings", [⟨"title", "T2"⟩, ⟨"pages", "1--2"⟩]⟩

/-- A hit whose fetched payload parses into exactly one entry. -/
def hitGood : Hit := ⟨"T2", "2020", "V", [entryDownloaded]⟩

/-- A hit whose fetched payload parses into zero entries. -/
def hitBad : Hit := ⟨"T3", "2021", "W", []⟩

/-! ### Claims -/

/-- C1: the claim that the serializer runs exactly once per batch, only
after the full pass, is false of the code: `bibtexparser.write_file` is
called at the end of every iteration of the entry loop, so it runs once per
entry (`entries.length` times, not once), the first invocation happens
before the second entry is processed, and for an empty batch it never runs
at all. -/
theorem serializer_invoked_once_per_entry :
    (∀ entries : List Entry,
      (bib_convert_events entries).count Event.writeFile = entries.length) ∧
    bib_convert_events [⟨"k1", "article", []⟩, ⟨"k2", "article", []⟩] =
      [Event.processEntry "k1", Event.writeFile,
        Event.processEntry "k2", Event.writeFile] ∧
    bib_convert_events [] = [] := by
  refine ⟨?_, rfl, rfl⟩
  intro entries
  induction entries with
  | nil => rfl
  | cons e rest ih =>
    have h1 : (Event.writeFile == Event.writeFile) = true := rfl
    have h2 : (Event.processEntry e.key == Event.writeFile) = false := rfl
    rw [bib_convert_events, List.count_cons, List.count_cons, ih, h1, h2]
    simp

/-- C2 counterexample: on an article whose second required field `author`
is missing while `journal` and `year` (later in the profile order) are
present, the code writes back title, journal and year — not only the fields
collected before the first missing required field (which would be the title
alone), refuting the truncation behavior the claim states. -/
theorem missing_field_truncation_cex :
    process_entry cfgPlain idOracle [] [] entryMissingAuthor =
      some (⟨"k1", "article",
          [⟨"title", "T"⟩, ⟨"journal", "J"⟩, ⟨"year", "Y"⟩]⟩,
        [Diag.missingField "author" "k1"]) ∧
    (process_entry cfgPlain idOracle [] [] entryMissingAuthor).map
      (fun p => p.1.fields) ≠ some [⟨"title", "T"⟩] := by
  decide

/-- C2 (amended): for an article / in-proceedings record with a required
field missing (rewriting and index lookup disabled), normalization logs a
warning naming each absent required field and the record's key, and writes
back exactly the required fields that are present, in the profile's order:
a missing field is merely skipped, required fields after it are kept when
present, and every non-required field is dropped. -/
theorem missing_required_field_behavior
    (cfg : Config) (ai : AiOracle) (hits : List Hit) (inputs : List String)
    (e : Entry) (req : List String) (k0 : String)
    (hai : cfg.use_ai = false) (hdblp : cfg.use_dblp = false)
    (hkind : (e.entry_type = "article" ∧ req = required_article) ∨
      (e.entry_type = "inproceedings" ∧ req = required_inproceedings))
    (hk0 : k0 ∈ req) (hmiss : fieldsDictGet e.fields k0 = none) :
    ∃ ds, process_entry cfg ai hits inputs e =
        some ({ e with fields := req.filterMap (fieldsDictGet e.fields) }, ds) ∧
      ds = (req.filter (fun k => (fieldsDictGet e.fields k).isNone)).map
        (fun k => Diag.missingField k e.key) ∧
      Diag.missingField k0 e.key ∈ ds := by
  refine ⟨_, ?_, rfl, ?_⟩
  · rw [process_entry_no_dblp cfg ai hits inputs e hdblp,
      convert_entry_step_known_kind cfg ai e req hai hkind]
  · exact List.mem_map_of_mem _ (List.mem_filter.mpr ⟨hk0, by simp [hmiss]⟩)

/-- Witness for C2's amended claim at a concrete article missing `author`. -/
theorem missing_required_field_behavior_witness :
    ∃ ds, process_entry cfgPlain idOracle [] [] entryMissingAuthor =
        some (⟨"k1", "article",
          [⟨"title", "T"⟩, ⟨"journal", "J"⟩, ⟨"year", "Y"⟩]⟩, ds) ∧
      ds = [Diag.missingField "author" "k1"] ∧
      Diag.missingField "author" entryMissingAuthor.key ∈ ds :=
  missing_required_field_behavior cfgPlain idOracle [] [] entryMissingAuthor
    required_article "author" rfl rfl (Or.inl ⟨rfl, rfl⟩) (by decide) (by decide)

/-- C3: with rewriting and index lookup disabled, an article /
in-proceedings record with every required field present normalizes with no
warnings to a record with the same key and type whose field list carries
exactly the required field names, in the profile's order, every field taken
from the input's fields (the `fields_dict` lookups are preserved), and
every non-required field dropped. -/
theorem all_required_present_schema_reduction
    (cfg : Config) (ai : AiOracle) (hits : List Hit) (inputs : List String)
    (e : Entry) (req : List String)
    (hai : cfg.use_ai = false) (hdblp : cfg.use_dblp = false)
    (hkind : (e.entry_type = "article" ∧ req = required_article) ∨
      (e.entry_type = "inproceedings" ∧ req = required_inproceedings))
    (hall : ∀ k ∈ req, (fieldsDictGet e.fields k).isSome = true) :
    ∃ e1, process_entry cfg ai hits inputs e = some (e1, []) ∧
      e1.fields.map Field.key = req ∧
      (∀ f ∈ e1.fields, f ∈ e.fields) ∧
      (∀ k ∈ req, fieldsDictGet e1.fields k = fieldsDictGet e.fields k) ∧
      e1.key = e.key ∧ e1.entry_type = e.entry_type := by
  have hds : (req.filter (fun k => (fieldsDictGet e.fields k).isNone)).map
      (fun k => Diag.missingField k e.key) = ([] : List Diag) := by
    rw [List.filter_eq_nil_iff.mpr ?_]
    · rfl
    · intro k hk
      have h1 := hall k hk
      cases hx : fieldsDictGet e.fields k with
      | none => rw [hx] at h1 ; exact absurd h1 (by simp)
      | some f => simp [hx]
  refine ⟨{ e with fields := req.filterMap (fieldsDictGet e.fields) },
    ?_, ?_, ?_, ?_, rfl, rfl⟩
  · rw [process_entry_no_dblp cfg ai hits inputs e hdblp,
      convert_entry_step_known_kind cfg ai e req hai hkind, hds]
  · exact filterMap_fieldsDictGet_keys e.fields req hall
  · intro f hf
    exact filterMap_fieldsDictGet_mem e.fields req f hf
  · intro k hk
    rw [fieldsDictGet_filterMap]
    simp [hk]

/-- Witness for C3 at a concrete article with all required fields and an
extra `note` field. -/
theorem all_required_present_schema_reduction_witness :
    ∃ e1, process_entry cfgPlain idOracle [] [] entryFullArticle = some (e1, []) ∧
      e1.fields.map Field.key = required_article ∧
      (∀ f ∈ e1.fields, f ∈ entryFullArticle.fields) ∧
      (∀ k ∈ required_article,
        fieldsDictGet e1.fields k = fieldsDictGet entryFullArticle.fields k) ∧
      e1.key = entryFullArticle.key ∧ e1.entry_type = entryFullArticle.entry_type :=
  all_required_present_schema_reduction cfgPlain idOracle [] [] entryFullArticle
    required_article rfl rfl (Or.inl ⟨rfl, rfl⟩) (by decide)

/-- C4: for a record carrying a title, the disambiguation step with zero
candidates logs exactly one no-hits warning naming the record's key and
leaves the record unchanged; with exactly one candidate whose fetch parses
into exactly one entry, it replaces the record's type and full field list
with the authoritative entry's, logging nothing. -/
theorem check_dblp_zero_and_one_candidate (e : Entry) (inputs : List String)
    (ht : (fieldsDictGet e.fields "title").isSome = true) :
    check_dblp e [] inputs = some (e, [Diag.noHits e.key]) ∧
    ∀ hit d, hit.parsed = [d] →
      check_dblp e [hit] inputs =
        some ({ e with fields := d.fields, entry_type := d.entry_type }, []) := by
  constructor
  · simp [check_dblp, ht]
  · intro hit d hp
    simp [check_dblp, ht, replace_entry, hp]

/-- Witness for C4 at a concrete titled entry, an empty hit list and a
one-hit list whose payload parses into exactly one entry. -/
theorem check_dblp_zero_and_one_candidate_witness :
    check_dblp entryTitled [] [] = some (entryTitled, [Diag.noHits "k4"]) ∧
    check_dblp entryTitled [hitGood] [] =
      some (⟨"k4", "inproceedings", [⟨"title", "T2"⟩, ⟨"pages", "1--2"⟩]⟩, []) :=
  ⟨(check_dblp_zero_and_one_candidate entryTitled [] (by decide)).1,
    (check_dblp_zero_and_one_candidate entryTitled [] (by decide)).2
      hitGood entryDownloaded rfl⟩

/-- C5: in the interactive many-candidate loop, an input that is not a
numeral below the candidate count never mutates the record — the loop just
re-prompts on the remaining inputs; an input that is a numeral `i` with
`i < count` makes the loop replace the record from candidate `i` and stop;
and the loop has not terminated (produced no outcome) precisely when every
input consumed so far was invalid — there is no other exit. -/
theorem many_loop_choice_discipline (e : Entry) (hits : List Hit) :
    (∀ c cs, validChoice c hits.length = false →
      manyLoop e hits (c :: cs) = manyLoop e hits cs) ∧
    (∀ c cs h, isdigit c = true → hits[strToNat c]? = some h →
      manyLoop e hits (c :: cs) = some (replace_entry e h)) ∧
    (∀ cs, manyLoop e hits cs = none ↔
      ∀ c ∈ cs, validChoice c hits.length = false) := by
  have hinv : ∀ c, validChoice c hits.length = false →
      isdigit c = true → hits[strToNat c]? = none := by
    intro c hv hd
    rw [validChoice, hd] at hv
    simp only [Bool.true_and, decide_eq_false_iff_not] at hv
    exact List.getElem?_eq_none (Nat.le_of_not_lt hv)
  refine ⟨?_, ?_, ?_⟩
  · intro c cs hv
    by_cases hd : isdigit c
    · simp [manyLoop, hd, hinv c hv hd]
    · simp [manyLoop, hd]
  · intro c cs h hd hh
    simp [manyLoop, hd, hh]
  · intro cs
    induction cs with
    | nil => simp [manyLoop]
    | cons c cs ih =>
      by_cases hd : isdigit c
      · cases hh : hits[strToNat c]? with
        | some h =>
          have hlt : strToNat c < hits.length :=
            (List.getElem?_eq_some_iff.mp hh).1
          have hvc : validChoice c hits.length = true := by
            simp [validChoice, hd, hlt]
          simp [manyLoop, hd, hh, hvc]
        | none =>
          have hvc : validChoice c hits.length = false := by
            simp only [validChoice, hd, Bool.true_and, decide_eq_false_iff_not]
            exact Nat.not_lt.mpr (List.getElem?_eq_none_iff.mp hh)
          simp [manyLoop, hd, hh, ih, hvc]
      · have hvc : validChoice c hits.length = false := by
          simp [validChoice, hd]
        simp [manyLoop, hd, ih, hvc]

/-- Witness for C5: an invalid input is consumed without changing anything. -/
theorem many_loop_choice_discipline_witness :
    validChoice "x" ([hitGood, hitBad].length) = false ∧
    manyLoop entryTitled [hitGood, hitBad] ["x", "0"] =
      manyLoop entryTitled [hitGood, hitBad] ["0"] :=
  ⟨by decide, (many_loop_choice_discipline entryTitled [hitGood, hitBad]).1
    "x" ["0"] (by decide)⟩

/-- C6: with the converter constructed with AI enabled (client
initialized), `ai_revise` never lets an exception past its boundary and
always produces a string: the service's response text when it is nonempty,
and the raw input unchanged both on an empty or missing response (with a
warning) and on any service exception (with an error diagnostic). -/
theorem ai_revise_total_with_client (outcome : AiOutcome) (old_name : String) :
    (∃ r, ai_revise true outcome old_name = Except.ok r) ∧
    (∀ m, ai_revise true (AiOutcome.raised m) old_name =
      Except.ok (old_name, [Diag.aiError m])) ∧
    ai_revise true (AiOutcome.returned none) old_name =
      Except.ok (old_name, [Diag.aiEmpty]) ∧
    (∀ c, ai_revise true (AiOutcome.returned (some c)) old_name =
      Except.ok (if c == "" then (old_name, [Diag.aiEmpty]) else (c, []))) := by
  refine ⟨?_, fun m => rfl, rfl, ?_⟩
  · cases outcome with
    | raised m => exact ⟨(old_name, [Diag.aiError m]), rfl⟩
    | returned content =>
      cases content with
      | none => exact ⟨(old_name, [Diag.aiEmpty]), rfl⟩
      | some c =>
        by_cases hc : (c == "") = true
        · exact ⟨(old_name, [Diag.aiEmpty]), by simp [ai_revise, hc]⟩
        · exact ⟨(c, []), by simp [ai_revise, hc]⟩
  · intro c
    by_cases hc : (c == "") = true <;> simp [ai_revise, hc]

/-- C7: a candidate whose fetched payload does not parse into exactly one
entry is a fetch failure, not an exception: `replace_entry` returns
normally, logs a warning naming the target record's key, and leaves the
target's type and fields unchanged. -/
theorem fetch_failure_leaves_record_unchanged (e : Entry) (hit : Hit)
    (h : hit.parsed.length ≠ 1) :
    replace_entry e hit = (e, [Diag.failedParseDblp e.key]) :=
  replace_entry_fail e hit h

/-- Witness for C7 at a concrete entry and a hit parsing into zero
entries. -/
theorem fetch_failure_leaves_record_unchanged_witness :
    hitBad.parsed.length ≠ 1 ∧
    replace_entry entryTitled hitBad =
      (entryTitled, [Diag.failedParseDblp "k4"]) :=
  ⟨by decide, fetch_failure_leaves_record_unchanged entryTitled hitBad (by decide)⟩

/-- C8 counterexample: with `suppress_type` set, an entry of unrecognized
type passes through normalization with NO warning logged at all, so the
claim that a warning naming the kind is always logged fails. -/
theorem unrecognized_kind_no_warning_cex :
    process_entry cfgSuppress idOracle [] [] entryBook = some (entryBook, []) := by
  decide

/-- C8 (amended): a record whose type is neither article nor inproceedings
passes through normalization with its fields (indeed the whole entry)
byte-identical to the input, and a warning naming the type and the record's
key is logged exactly when the `suppress_type` option is off. -/
theorem unrecognized_kind_passthrough (cfg : Config) (ai : AiOracle)
    (hits : List Hit) (inputs : List String) (e : Entry)
    (h1 : e.entry_type ≠ "article") (h2 : e.entry_type ≠ "inproceedings") :
    process_entry cfg ai hits inputs e =
      some (e, if cfg.suppress_type then []
        else [Diag.unrecognizedKind e.entry_type e.key]) := by
  have hb1 : (e.entry_type == "article") = false := by simp [h1]
  have hb2 : (e.entry_type == "inproceedings") = false := by simp [h2]
  cases hs : cfg.suppress_type <;>
    simp [process_entry, convert_entry_step, hb1, hb2, hs]

/-- Witness for C8's amended claim: with `suppress_type` off the warning
names the type and the key. -/
theorem unrecognized_kind_passthrough_witness :
    process_entry cfgPlain idOracle [] [] entryBook =
      some (entryBook, if cfgPlain.suppress_type then []
        else [Diag.unrecognizedKind "book" "k3"]) :=
  unrecognized_kind_passthrough cfgPlain idOracle [] [] entryBook
    (by decide) (by decide)

/-- C9: with index lookup and AI rewriting disabled, per-entry
normalization is idempotent: normalizing the record a normalization run
produced returns that record unchanged (same key, same type, same field
list in the same order with the same values). -/
theorem normalization_idempotent (cfg : Config) (ai : AiOracle)
    (hits : List Hit) (inputs : List String) (e e1 : Entry) (ds : List Diag)
    (hai : cfg.use_ai = false) (hdblp : cfg.use_dblp = false)
    (h : process_entry cfg ai hits inputs e = some (e1, ds)) :
    (process_entry cfg ai hits inputs e1).map (fun p => p.1) = some e1 := by
  rw [process_entry_no_dblp cfg ai hits inputs e hdblp] at h
  have h2 : (e1, ds) = convert_entry_step cfg ai e := (Option.some.inj h).symm
  have h1 : e1 = (convert_entry_step cfg ai e).1 := by rw [← h2]
  rw [process_entry_no_dblp cfg ai hits inputs e1 hdblp, Option.map_some', h1,
    convert_entry_step_idem cfg ai e hai]

/-- Witness for C9 at the normalization result of a concrete article. -/
theorem normalization_idempotent_witness :
    (process_entry cfgPlain idOracle [] [] entryFullNormalized).map
      (fun p => p.1) = some entryFullNormalized :=
  normalization_idempotent cfgPlain idOracle [] [] entryFullArticle
    entryFullNormalized [] rfl rfl (by decide)

/-- C10: once the operator enters a valid index, the interactive loop exits
unconditionally: if the chosen candidate's payload does not parse into
exactly one entry, the target record is left unchanged, the parse warning
is logged, and the remaining operator inputs are not consumed — the
operator is not re-prompted. -/
theorem many_loop_exits_on_fetch_failure (e : Entry) (hits : List Hit)
    (c : String) (cs : List String) (h : Hit)
    (hd : isdigit c = true) (hh : hits[strToNat c]? = some h)
    (hp : h.parsed.length ≠ 1) :
    manyLoop e hits (c :: cs) = some (e, [Diag.failedParseDblp e.key]) := by
  simp [manyLoop, hd, hh, replace_entry_fail e h hp]

/-- Witness for C10: choosing candidate 0, whose payload parses into zero
entries, exits the loop at once with the entry unchanged, ignoring the
remaining input. -/
theorem many_loop_exits_on_fetch_failure_witness :
    manyLoop entryTitled [hitBad, hitGood] ["0", "1"] =
      some (entryTitled, [Diag.failedParseDblp "k4"]) :=
  many_loop_exits_on_fetch_failure entryTitled [hitBad, hitGood] "0" ["1"]
    hitBad (by decide) (by decide) (by decide)

end BibCheck
